import Mathlib

/-!
# Verification of the sistema-catraca-fesc access-control engine

Shallow embedding, in Lean 4, of the core of the FESC turnstile middleware:

* the binary protocol codec (`TurnstileClient._buildFrame` /
  `TurnstileClient._readResponse` from `src/TurnstileClient.ts`),
* the RFID access-decision engine (`handleRFID` / `allowAccess` from
  `src/index.ts`),
* the file-based mutual-exclusion lock (`src/utils/Lockfile.ts`), and
* the synchronization job (`runImport` from `src/utils/importJob.ts`).

Buffers are modelled as `List Nat` (one `Nat` per byte), JavaScript numbers
that can be `NaN` as `Option Int` (`none` = `NaN`), dates as absolute integer
millisecond timestamps, and the repository / network collaborators as inputs
describing the results the corresponding calls would return.  Effectful code
returns explicit traces and updated state.
-/

namespace Catraca

/-! ## Protocol codec (`src/TurnstileClient.ts`) -/

/-- STX framing byte (0x02). -/
def STX : Nat := 0x02

/-- ETX framing byte (0x03). -/
def ETX : Nat := 0x03

/-- ASCII `'+'` (0x2B), the payload field separator. -/
def PLUS : Nat := 0x2B

/-- ASCII decimal digit test, `'0'` (48) to `'9'` (57). -/
def isDigit (b : Nat) : Bool := decide (48 ≤ b ∧ b ≤ 57)

/-- JavaScript whitespace accepted by `Number.parseInt` before the number:
space, tab, LF, VT, FF, CR. -/
def isJsSpace (b : Nat) : Bool :=
  decide (b = 0x20 ∨ b = 0x09 ∨ b = 0x0A ∨ b = 0x0B ∨ b = 0x0C ∨ b = 0x0D)

/-- Value of a list of ASCII digit bytes read in base 10. -/
def digitsVal (ds : List Nat) : Nat :=
  ds.foldl (fun acc d => acc * 10 + (d - 48)) 0

/-- Digits-and-sign part of `Number.parseInt(s, 10)`: longest leading run of
decimal digits; no digits means `NaN` (`none`). -/
def parseIntDigits (neg : Bool) (r : List Nat) : Option Int :=
  let ds := r.takeWhile isDigit
  if ds.isEmpty then none
  else some ((if neg then -1 else 1) * (digitsVal ds : Int))

/-- `Number.parseInt(s, 10)` on a byte string: skip leading whitespace, an
optional sign, then read leading decimal digits; `none` models `NaN`. -/
def parseIntJS (s : List Nat) : Option Int :=
  match s.dropWhile isJsSpace with
  | 0x2B :: r => parseIntDigits false r
  | 0x2D :: r => parseIntDigits true r
  | r => parseIntDigits false r

/-- Decoded frame, `Message` in `TurnstileClient.ts` (the `originalResponse`
mirrors of the raw buffer are omitted; `index` is `none` when
`Number.parseInt` produced `NaN`). -/
structure Message where
  size : Nat
  index : Option Int
  command : List Nat
  errorOrVersion : List Nat
  data : List Nat
  deriving Repr, DecidableEq

/-- The cursor scan `while (cursor < length - 1 && buf[cursor] !== PLUS)
cursor++` of `_readResponse`: first position `≥ cursor` holding `'+'`, stopping
at `length - 1`. -/
def scanPlus (buf : List Nat) (cursor : Nat) : Nat :=
  if _h : cursor + 1 < buf.length ∧ buf.getD cursor 0 ≠ PLUS then
    scanPlus buf (cursor + 1)
  else cursor
termination_by buf.length - cursor

/-- `TurnstileClient._readResponse`: validate framing, parse the 2-digit
index (`buf[3]`,`buf[4]`) and split the payload on the three `'+'`
separators; `size` is `buf[1]`, `command` runs from byte 6 to the second
separator, `errorOrVersion` to the third, and `data` to `buf.length - 2`
(the checksum byte is not re-verified).  A thrown `Error` is modelled as
`Except.error` carrying the message. -/
def readResponse (buf : List Nat) : Except String Message :=
  if buf.length < 7 then .error "Resposta muito curta"
  else if buf.getD 0 0 ≠ STX ∨ buf.getD (buf.length - 1) 0 ≠ ETX then
    .error "interferencia na comunicacao com o equipamento"
  else if buf.getD 5 0 ≠ PLUS then
    .error "Formato inesperado (faltou separador apos indice)"
  else if buf.getD (scanPlus buf 6) 0 ≠ PLUS then
    .error "Formato inesperado (faltou separador apos comando)"
  else if buf.getD (scanPlus buf (scanPlus buf 6 + 1)) 0 ≠ PLUS then
    .error "Formato inesperado (faltou separador apos err/version)"
  else
    .ok ⟨buf.getD 1 0,
         parseIntJS [buf.getD 3 0, buf.getD 4 0],
         (buf.drop 6).take (scanPlus buf 6 - 6),
         (buf.drop (scanPlus buf 6 + 1)).take
           (scanPlus buf (scanPlus buf 6 + 1) - (scanPlus buf 6 + 1)),
         (buf.drop (scanPlus buf (scanPlus buf 6 + 1) + 1)).take
           (buf.length - 2 - (scanPlus buf (scanPlus buf 6 + 1) + 1))⟩

/-- Decimal ASCII representation of a natural number, as produced by the
template literal `${index}`. -/
def natDecimalBytes (n : Nat) : List Nat :=
  if h : n < 10 then [48 + n]
  else natDecimalBytes (n / 10) ++ [48 + n % 10]
decreasing_by exact Nat.div_lt_self (by omega) (by omega)

/-- `TurnstileClient._checksum`: running XOR of the bytes. -/
def checksum (bytes : List Nat) : Nat :=
  bytes.foldl (fun sum b => sum ^^^ b) 0

/-- `TurnstileClient._buildFrame`: wrap `"<index>+<payload>"` with STX, the
two-byte size field, the XOR checksum and ETX. -/
def buildFrame (index : Nat) (payload : List Nat) : List Nat :=
  let data := natDecimalBytes index ++ [PLUS] ++ payload
  let size := [data.length % 256, 0]
  [STX] ++ size ++ data ++ [checksum (data ++ size)] ++ [ETX]

/-- The payload shape every call site uses: `command+err+data`
(e.g. `REON` + `00` + `6]4]msg]2`).  Encoding a tuple builds the frame for
that payload. -/
def encodeTuple (index : Nat) (command err data : List Nat) : List Nat :=
  buildFrame index (command ++ [PLUS] ++ err ++ [PLUS] ++ data)

/-! ### Codec lemmas -/

theorem scanPlus_ge (buf : List Nat) (start : Nat) : start ≤ scanPlus buf start := by
  rw [scanPlus]
  split
  next h => exact Nat.le_trans (Nat.le_succ start) (scanPlus_ge buf (start + 1))
  next => exact Nat.le_refl start
termination_by buf.length - start
decreasing_by omega

/-- If the `k` bytes from `start` are not `'+'`, the byte at `start + k` is
`'+'`, and that position is left of the final byte, the scan stops exactly
there. -/
theorem scanPlus_eq (buf : List Nat) (start k : Nat)
    (hmid : ∀ j, j < k → buf.getD (start + j) 0 ≠ PLUS)
    (hplus : buf.getD (start + k) 0 = PLUS)
    (hlen : start + k + 1 < buf.length) :
    scanPlus buf start = start + k := by
  induction k generalizing start with
  | zero =>
    rw [scanPlus, dif_neg (fun h => h.2 (by simpa using hplus))]
    omega
  | succ k ih =>
    rw [scanPlus, dif_pos]
    · have hrec := ih (start + 1)
        (fun j hj => by
          have := hmid (j + 1) (by omega)
          simpa [Nat.add_assoc, Nat.add_comm 1 j] using this)
        (by
          have : start + 1 + k = start + (k + 1) := by omega
          rw [this]; exact hplus)
        (by omega)
      omega
    · refine ⟨by omega, ?_⟩
      simpa using hmid 0 (by omega)

/-- A two-digit number prints as its two decimal digits. -/
theorem natDecimalBytes_two (n : Nat) (h1 : 10 ≤ n) (h2 : n ≤ 99) :
    natDecimalBytes n = [48 + n / 10, 48 + n % 10] := by
  rw [natDecimalBytes, dif_neg (by omega), natDecimalBytes, dif_pos (by omega)]
  rfl

/-- `Number.parseInt` recovers a number from its two ASCII digits. -/
theorem parseIntJS_digits (q r : Nat) (hq1 : 1 ≤ q) (hq : q ≤ 9) (hr : r ≤ 9) :
    parseIntJS [48 + q, 48 + r] = some ((10 * q + r : Nat) : Int) := by
  have hs : isJsSpace (48 + q) = false := by simp [isJsSpace]; omega
  have hd1 : isDigit (48 + q) = true := by simp [isDigit]; omega
  have hd2 : isDigit (48 + r) = true := by simp [isDigit]; omega
  unfold parseIntJS
  rw [List.dropWhile_cons_of_neg (by simp [hs])]
  split
  next r' heq =>
    exfalso
    simp only [List.cons.injEq] at heq
    obtain ⟨h, -⟩ := heq
    omega
  next r' heq =>
    exfalso
    simp only [List.cons.injEq] at heq
    obtain ⟨h, -⟩ := heq
    omega
  next =>
    unfold parseIntDigits
    rw [List.takeWhile_cons_of_pos (by simp [hd1]),
        List.takeWhile_cons_of_pos (by simp [hd2])]
    simp [digitsVal]
    ring

/-- Indexing that skips an entire prefix of an append. -/
theorem getD_skip (l l' : List Nat) (j : Nat) :
    (l ++ l').getD (l.length + j) 0 = l'.getD j 0 := by
  rw [List.getD_append_right _ _ _ _ (Nat.le_add_right _ _)]
  simp

/-- Decoding a frame with all three separators in place recovers its fields,
for any header bytes, any checksum byte and `'+'`-free command / err
fields. -/
theorem readResponse_frame (sz b2 d1 d2 ck : Nat) (cmd err dat : List Nat)
    (hc : PLUS ∉ cmd) (he : PLUS ∉ err) :
    readResponse ([STX, sz, b2, d1, d2, PLUS] ++
        (cmd ++ (PLUS :: (err ++ (PLUS :: (dat ++ [ck, ETX])))))) =
      .ok ⟨sz, parseIntJS [d1, d2], cmd, err, dat⟩ := by
  set L := [STX, sz, b2, d1, d2, PLUS] ++
      (cmd ++ (PLUS :: (err ++ (PLUS :: (dat ++ [ck, ETX]))))) with hL
  have hlen : L.length = 10 + cmd.length + err.length + dat.length := by
    rw [hL]; simp; omega
  have hT : ∀ j, L.getD (6 + j) 0 =
      (cmd ++ (PLUS :: (err ++ (PLUS :: (dat ++ [ck, ETX]))))).getD j 0 := by
    intro j
    rw [hL, show (6 : Nat) + j =
      ([STX, sz, b2, d1, d2, PLUS] : List Nat).length + j from by simp, getD_skip]
  have hgcmd : ∀ j, j < cmd.length → L.getD (6 + j) 0 ≠ PLUS := by
    intro j hj
    rw [hT j, List.getD_append _ _ _ _ hj, List.getD_eq_getElem _ _ hj]
    exact fun hEq => hc (hEq ▸ List.getElem_mem hj)
  have hp1 : L.getD (6 + cmd.length) 0 = PLUS := by
    rw [show 6 + cmd.length = 6 + (cmd.length + 0) from by omega, hT, getD_skip]
    rfl
  have hs1 : scanPlus L 6 = 6 + cmd.length :=
    scanPlus_eq L 6 cmd.length hgcmd hp1 (by omega)
  have hR1 : ∀ j, L.getD (6 + cmd.length + 1 + j) 0 =
      (err ++ (PLUS :: (dat ++ [ck, ETX]))).getD j 0 := by
    intro j
    rw [show 6 + cmd.length + 1 + j = 6 + (cmd.length + (j + 1)) from by omega, hT,
      getD_skip, List.getD_cons_succ]
  have hgerr : ∀ j, j < err.length → L.getD (6 + cmd.length + 1 + j) 0 ≠ PLUS := by
    intro j hj
    rw [hR1 j, List.getD_append _ _ _ _ hj, List.getD_eq_getElem _ _ hj]
    exact fun hEq => he (hEq ▸ List.getElem_mem hj)
  have hp2 : L.getD (6 + cmd.length + 1 + err.length) 0 = PLUS := by
    rw [show 6 + cmd.length + 1 + err.length
        = 6 + cmd.length + 1 + (err.length + 0) from by omega, hR1, getD_skip]
    rfl
  have hs2 : scanPlus L (6 + cmd.length + 1) = 6 + cmd.length + 1 + err.length := by
    apply scanPlus_eq
    · exact hgerr
    · exact hp2
    · omega
  have h0 : L.getD 0 0 = STX := by rw [hL]; rfl
  have h1g : L.getD 1 0 = sz := by rw [hL]; rfl
  have h3g : L.getD 3 0 = d1 := by rw [hL]; rfl
  have h4g : L.getD 4 0 = d2 := by rw [hL]; rfl
  have h5g : L.getD 5 0 = PLUS := by rw [hL]; rfl
  have hlast : L.getD (L.length - 1) 0 = ETX := by
    have h9 : L.length - 1 =
        6 + (cmd.length + (1 + (err.length + (1 + (dat.length + 1))))) := by omega
    rw [h9, hT, getD_skip,
      show (1 + (err.length + (1 + (dat.length + 1))))
        = (err.length + (1 + (dat.length + 1))) + 1 from by omega,
      List.getD_cons_succ, getD_skip,
      show (1 + (dat.length + 1)) = (dat.length + 1) + 1 from by omega,
      List.getD_cons_succ, getD_skip]
    rfl
  have hdrop6 : L.drop 6 = cmd ++ (PLUS :: (err ++ (PLUS :: (dat ++ [ck, ETX])))) := by
    rw [hL]
    exact List.drop_left' (by simp)
  have hBdec : L = (([STX, sz, b2, d1, d2, PLUS] ++ cmd) ++ [PLUS]) ++
      (err ++ (PLUS :: (dat ++ [ck, ETX]))) := by
    rw [hL]; simp
  have hCdec : L = (((([STX, sz, b2, d1, d2, PLUS] ++ cmd) ++ [PLUS]) ++ err) ++ [PLUS]) ++
      (dat ++ [ck, ETX]) := by
    rw [hL]; simp
  have hdropE : L.drop (6 + cmd.length + 1) = err ++ (PLUS :: (dat ++ [ck, ETX])) := by
    rw [hBdec]
    exact List.drop_left' (by simp; omega)
  have hdropD : L.drop (6 + cmd.length + 1 + err.length + 1) = dat ++ [ck, ETX] := by
    rw [hCdec]
    exact List.drop_left' (by simp; omega)
  rw [readResponse, if_neg (by omega),
    if_neg (not_or.mpr ⟨fun h => h h0, fun h => h hlast⟩),
    if_neg (fun h => h h5g), hs1, if_neg (fun h => h hp1), hs2, if_neg (fun h => h hp2),
    h1g, h3g, h4g, hdrop6, hdropE, hdropD,
    show 6 + cmd.length - 6 = cmd.length from by omega,
    show 6 + cmd.length + 1 + err.length - (6 + cmd.length + 1) = err.length from by omega,
    show L.length - 2 - (6 + cmd.length + 1 + err.length + 1) = dat.length from by omega,
    List.take_left' rfl, List.take_left' rfl, List.take_left' rfl]

/-- Claim C5: for every valid `(index, command, err, data)` tuple — a
two-digit index, `'+'`-free 7-bit command and err fields and 7-bit data
(`Buffer` `ascii` coding strips the high bit, so only 7-bit bytes travel
unchanged) — decoding the encoder's frame recovers the original index,
command, errorOrVersion and data fields exactly. -/
theorem readResponse_encodeTuple_roundtrip (index : Nat) (cmd err dat : List Nat)
    (h10 : 10 ≤ index) (h99 : index ≤ 99)
    (hc : PLUS ∉ cmd) (he : PLUS ∉ err)
    (hcb : ∀ b ∈ cmd, b < 128) (heb : ∀ b ∈ err, b < 128)
    (hdb : ∀ b ∈ dat, b < 128) :
    ∃ m, readResponse (encodeTuple index cmd err dat) = .ok m ∧
      m.index = some (index : Int) ∧ m.command = cmd ∧
      m.errorOrVersion = err ∧ m.data = dat := by
  have hA : encodeTuple index cmd err dat =
      [STX,
       (natDecimalBytes index ++ [PLUS] ++ (cmd ++ [PLUS] ++ err ++ [PLUS] ++ dat)).length % 256,
       0, 48 + index / 10, 48 + index % 10, PLUS] ++
      (cmd ++ (PLUS :: (err ++ (PLUS ::
        (dat ++ [checksum ((natDecimalBytes index ++ [PLUS] ++
              (cmd ++ [PLUS] ++ err ++ [PLUS] ++ dat)) ++
            [(natDecimalBytes index ++ [PLUS] ++
              (cmd ++ [PLUS] ++ err ++ [PLUS] ++ dat)).length % 256, 0]),
         ETX]))))) := by
    simp only [encodeTuple, buildFrame]
    rw [natDecimalBytes_two index h10 h99]
    simp [List.append_assoc]
  rw [hA, readResponse_frame _ _ _ _ _ cmd err dat hc he]
  refine ⟨_, rfl, ?_, rfl, rfl, rfl⟩
  show parseIntJS [48 + index / 10, 48 + index % 10] = some (index : Int)
  rw [parseIntJS_digits (index / 10) (index % 10) (by omega) (by omega) (by omega),
    show 10 * (index / 10) + index % 10 = index from by omega]

/-- Witness for C5 at the concrete tuple `(10, "REON", "00", "6]4]OK]2")`. -/
theorem readResponse_encodeTuple_roundtrip_witness :
    ∃ m, readResponse (encodeTuple 10 [82, 69, 79, 78] [48, 48]
        [54, 93, 52, 93, 79, 75, 93, 50]) = .ok m ∧
      m.index = some (10 : Int) ∧ m.command = [82, 69, 79, 78] ∧
      m.errorOrVersion = [48, 48] ∧ m.data = [54, 93, 52, 93, 79, 75, 93, 50] :=
  readResponse_encodeTuple_roundtrip 10 [82, 69, 79, 78] [48, 48]
    [54, 93, 52, 93, 79, 75, 93, 50] (by decide) (by decide) (by decide) (by decide)
    (by decide) (by decide) (by decide)

/-- A successful decode presupposes all framing checks: minimum length,
STX/ETX, and a `'+'` byte at position 5 and at the two scan stops. -/
theorem readResponse_ok_facts (buf : List Nat) (m : Message)
    (h : readResponse buf = .ok m) :
    7 ≤ buf.length ∧ buf.getD 0 0 = STX ∧ buf.getD (buf.length - 1) 0 = ETX ∧
    buf.getD 5 0 = PLUS ∧ buf.getD (scanPlus buf 6) 0 = PLUS ∧
    buf.getD (scanPlus buf (scanPlus buf 6 + 1)) 0 = PLUS := by
  rw [readResponse] at h
  split_ifs at h with h1 h2 h3 h4 h5
  push_neg at h2
  exact ⟨by omega, h2.1, h2.2, not_not.mp h3, not_not.mp h4, not_not.mp h5⟩

/-- Three distinct positions holding `v` force at least three occurrences. -/
theorem count_ge_three (s : List Nat) (v : Nat) (i j k : Nat)
    (hij : i < j) (hjk : j < k) (hk : k < s.length)
    (hvi : s.getD i 0 = v) (hvj : s.getD j 0 = v) (hvk : s.getD k 0 = v) :
    3 ≤ s.count v := by
  have hi : i < s.length := by omega
  have hj : j < s.length := by omega
  have step : ∀ p, p < s.length → s.getD p 0 = v →
      (s.drop p).count v = (s.drop (p + 1)).count v + 1 := by
    intro p hp hv
    rw [List.drop_eq_getElem_cons hp,
      show s[p] = v from by rw [← List.getD_eq_getElem s 0 hp]; exact hv,
      List.count_cons_self]
  have mono : ∀ a b : Nat, a ≤ b → (s.drop b).count v ≤ (s.drop a).count v := by
    intro a b hab
    rw [show s.drop b = (s.drop a).drop (b - a) from by
      rw [List.drop_drop]; congr 1; omega]
    exact (List.drop_sublist _ _).count_le v
  have c1 := step i hi hvi
  have c2 := step j hj hvj
  have c3 := step k hk hvk
  have d1 := mono 0 i (by omega)
  have d2 := mono (i + 1) j (by omega)
  have d3 := mono (j + 1) k (by omega)
  rw [List.drop_zero] at d1
  omega

/-- Reading the payload slice (positions `5 … length - 2`) agrees with
reading the buffer. -/
theorem slice_getD (buf : List Nat) (p : Nat) (h5 : 5 ≤ p) (hp : p + 1 < buf.length) :
    ((buf.drop 5).take (buf.length - 6)).getD (p - 5) 0 = buf.getD p 0 := by
  rw [List.getD_eq_getD_get?, List.get?_take (show p - 5 < buf.length - 6 from by omega),
    List.get?_drop, show 5 + (p - 5) = p from by omega, ← List.getD_eq_getD_get?]

/-- Claim C6: a buffer shorter than 7 bytes, or not STX/ETX-delimited, or
with fewer than three `'+'` bytes in its payload region (positions 5 to
`length - 2`: the separator after the index, after the command and after
err/version cannot all be present) makes `readResponse` raise a framing
error and never return a partial `Message`. -/
theorem readResponse_framing_reject (buf : List Nat)
    (h : buf.length < 7 ∨ buf.getD 0 0 ≠ STX ∨ buf.getD (buf.length - 1) 0 ≠ ETX ∨
      ((buf.drop 5).take (buf.length - 6)).count PLUS < 3) :
    ∃ e, readResponse buf = .error e := by
  cases hr : readResponse buf with
  | error e => exact ⟨e, rfl⟩
  | ok m =>
    exfalso
    obtain ⟨hl, h0, hlast, hp5, hp1, hp2⟩ := readResponse_ok_facts buf m hr
    have hc1ge : 6 ≤ scanPlus buf 6 := scanPlus_ge buf 6
    have hc2ge : scanPlus buf 6 + 1 ≤ scanPlus buf (scanPlus buf 6 + 1) :=
      scanPlus_ge buf (scanPlus buf 6 + 1)
    have hc1lt : scanPlus buf 6 < buf.length := by
      by_contra hh
      rw [List.getD_eq_default _ _ (by omega)] at hp1
      exact (show (0 : Nat) ≠ PLUS from by decide) hp1
    have hc2lt : scanPlus buf (scanPlus buf 6 + 1) < buf.length := by
      by_contra hh
      rw [List.getD_eq_default _ _ (by omega)] at hp2
      exact (show (0 : Nat) ≠ PLUS from by decide) hp2
    have hc1ne : scanPlus buf 6 ≠ buf.length - 1 := by
      intro hEq
      rw [hEq, hlast] at hp1
      exact (show ETX ≠ PLUS from by decide) hp1
    have hc2ne : scanPlus buf (scanPlus buf 6 + 1) ≠ buf.length - 1 := by
      intro hEq
      rw [hEq, hlast] at hp2
      exact (show ETX ≠ PLUS from by decide) hp2
    have hcount : 3 ≤ ((buf.drop 5).take (buf.length - 6)).count PLUS := by
      apply count_ge_three _ PLUS 0 (scanPlus buf 6 - 5)
        (scanPlus buf (scanPlus buf 6 + 1) - 5) (by omega) (by omega)
      · rw [List.length_take, List.length_drop]; omega
      · rw [show (0 : Nat) = 5 - 5 from rfl, slice_getD buf 5 (by omega) (by omega)]
        exact hp5
      · rw [slice_getD buf _ (by omega) (by omega)]
        exact hp1
      · rw [slice_getD buf _ (by omega) (by omega)]
        exact hp2
    rcases h with h | h | h | h
    · omega
    · exact h h0
    · exact h hlast
    · omega

/-- Witness for C6 at the 3-byte buffer `[STX, 9, 0]`. -/
theorem readResponse_framing_reject_witness :
    ∃ e, readResponse [2, 9, 0] = .error e :=
  readResponse_framing_reject [2, 9, 0] (by decide)

/-- `parseInt` finds no digits: `NaN`. -/
theorem parseIntDigits_none (neg : Bool) (r : List Nat)
    (h : ∀ x ∈ r, isDigit x = false) : parseIntDigits neg r = none := by
  cases r with
  | nil => rfl
  | cons x t =>
    unfold parseIntDigits
    rw [List.takeWhile_cons_of_neg (by simp [h x (by simp)])]
    rfl

/-- `Number.parseInt` on a string with no digit at all is `NaN`. -/
theorem parseIntJS_none (s : List Nat) (h : ∀ x ∈ s, isDigit x = false) :
    parseIntJS s = none := by
  have hsub : ∀ x ∈ s.dropWhile isJsSpace, isDigit x = false := fun x hx =>
    h x ((List.dropWhile_sublist isJsSpace).mem hx)
  unfold parseIntJS
  split
  next r' heq =>
    exact parseIntDigits_none false r'
      (fun x hx => hsub x (by rw [heq]; exact List.mem_cons_of_mem _ hx))
  next r' heq =>
    exact parseIntDigits_none true r'
      (fun x hx => hsub x (by rw [heq]; exact List.mem_cons_of_mem _ hx))
  next => exact parseIntDigits_none false _ hsub

/-- Claim C10: `_readResponse` does not validate the two INDEX bytes.  A
buffer that passes every framing check but whose bytes 3–4 are no ASCII
decimal digits is decoded without raising, into a `Message` whose `index`
is `NaN` (modelled as `none`). -/
theorem readResponse_index_not_validated (buf : List Nat)
    (hlen : 7 ≤ buf.length)
    (h0 : buf.getD 0 0 = STX) (hlast : buf.getD (buf.length - 1) 0 = ETX)
    (h5 : buf.getD 5 0 = PLUS)
    (hp1 : buf.getD (scanPlus buf 6) 0 = PLUS)
    (hp2 : buf.getD (scanPlus buf (scanPlus buf 6 + 1)) 0 = PLUS)
    (h3 : isDigit (buf.getD 3 0) = false) (h4 : isDigit (buf.getD 4 0) = false) :
    ∃ m, readResponse buf = .ok m ∧ m.index = none := by
  rw [readResponse, if_neg (by omega),
    if_neg (not_or.mpr ⟨fun h => h h0, fun h => h hlast⟩),
    if_neg (fun h => h h5), if_neg (fun h => h hp1), if_neg (fun h => h hp2)]
  refine ⟨_, rfl, parseIntJS_none _ ?_⟩
  intro x hx
  simp only [List.mem_cons, List.not_mem_nil, or_false] at hx
  rcases hx with rfl | rfl
  · exact h3
  · exact h4

/-- Witness for C10: frame `STX 9 0 'A' 'B' + 'R' + '0' + 'd' ck ETX`
decodes fine with `index = NaN`. -/
theorem readResponse_index_not_validated_witness :
    ∃ m, readResponse [2, 9, 0, 65, 66, 43, 82, 43, 48, 43, 100, 99, 3] = .ok m ∧
      m.index = none := by
  have hs1 : scanPlus [2, 9, 0, 65, 66, 43, 82, 43, 48, 43, 100, 99, 3] 6 = 7 :=
    scanPlus_eq _ 6 1 (by intro j hj; interval_cases j <;> decide) (by decide) (by decide)
  have hs2 : scanPlus [2, 9, 0, 65, 66, 43, 82, 43, 48, 43, 100, 99, 3] 8 = 9 :=
    scanPlus_eq _ 8 1 (by intro j hj; interval_cases j <;> decide) (by decide) (by decide)
  exact readResponse_index_not_validated _ (by decide) (by decide) (by decide) (by decide)
    (by rw [hs1]; decide) (by rw [hs1, hs2]; decide) (by decide) (by decide)

/-! ## Mutual-exclusion lock (`src/utils/Lockfile.ts`)

State of one lock marker file: `some mtime` when `/tmp/<name>.lock` exists
with modification time `mtime` (ms since epoch), `none` otherwise.  The
constructor turns `timeoutSeconds` into `timeoutMs = timeoutSeconds * 1000`.
-/

/-- `Lockfile.release()`: idempotent removal of the marker (no-op when the
file is already absent, `unlinkSync` otherwise). -/
def lockRelease (_fs : Option Int) : Option Int := none

/-- `Lockfile.isLocked()` at time `now`: absent marker → `false`; marker
with `age > timeoutMs` → auto-removed via `release()` and `false`; marker
within the timeout → `true`.  Returns the flag and the file-system state
after the check. -/
def isLocked (timeoutMs now : Int) : Option Int → Bool × Option Int
  | none => (false, none)
  | some mtime =>
    if now - mtime > timeoutMs then (false, lockRelease (some mtime))
    else (true, some mtime)

/-- `Lockfile.acquire()`: fails (and leaves the marker alone) when
`isLocked()`, otherwise writes the marker with the current time and
succeeds. -/
def lockAcquire (timeoutMs now : Int) (fs : Option Int) : Bool × Option Int :=
  let checked := isLocked timeoutMs now fs
  if checked.1 then (false, checked.2) else (true, some now)

/-- Claim C9: a marker whose age strictly exceeds the configured timeout
makes `isLocked()` return `false` and removes the marker as a side effect;
a marker within the timeout makes it return `true` (marker kept). -/
theorem isLocked_self_expiry (ts now mtime : Int) :
    (now - mtime > ts * 1000 →
      isLocked (ts * 1000) now (some mtime) = (false, none)) ∧
    (now - mtime ≤ ts * 1000 →
      isLocked (ts * 1000) now (some mtime) = (true, some mtime)) := by
  refine ⟨fun h => ?_, fun h => ?_⟩
  · simp only [isLocked, lockRelease]
    rw [if_pos h]
  · simp only [isLocked, lockRelease]
    rw [if_neg (by omega)]

/-- Witness for C9 with the 60-second `import` lock: a 100-second-old marker
expires and is removed, a 50-second-old one holds. -/
theorem isLocked_self_expiry_witness :
    isLocked (60 * 1000) 100000 (some 0) = (false, none) ∧
    isLocked (60 * 1000) 100000 (some 50000) = (true, some 50000) :=
  ⟨(isLocked_self_expiry 60 100000 0).1 (by decide),
   (isLocked_self_expiry 60 100000 50000).2 (by decide)⟩

/-! ## Access-decision engine (`src/index.ts`)

`handleRFID` is embedded as a pure function of the RFID event (already
split: parsed `tagId` = `data[1]`, parsed `way` = `data[5]`, message
`index`), the current local date, the pending-turn slot `waitingToTurn`,
and the results the collaborators would return for this event:
`lockfile.isLocked()`, `tagService.getByCredential`,
`accessService.getLastAccessFromUserId` (its `timestamp.getTime()`), and
`classService.getClassesFromUserIdAndWeekDay` (the `start` minutes of the
rows for today's weekday).  It returns the list of driver commands sent and
the new `waitingToTurn`.  JavaScript numbers that may be `NaN` (message
index, parsed `tagId` and `way`) are `Option Int`.
-/

/-- A `Tag` row (`prisma/schema`: tag looked up by `credential`). -/
structure Tag where
  userId : Int
  credential : Int
  released : Bool
  status : String
  admin : Bool
  deriving Repr, DecidableEq

/-- The in-memory `waitingToTurn` record. -/
structure Waiting where
  messageIndex : Option Int
  tagId : Int
  deriving Repr, DecidableEq

/-- Display text on the controller: the engine's i18n keys (`utils/i18n`,
an external collaborator), a Tag's own `status` string, or the driver's
built-in default deny message (`"ACESSO NEGADO!"`). -/
inductive DisplayText where
  | waitSystemIsUpdating
  | onlyOneAccess
  | outOfHour
  | tagStatus (s : String)
  | defaultDeny
  deriving Repr, DecidableEq

/-- Driver command issued by the engine (`allowEntry` / `allowExit` /
`denyAccess`, each fire-and-forget with the echoed message index). -/
inductive Command where
  | allowEntry (index : Option Int) (message : DisplayText)
  | allowExit (index : Option Int) (message : DisplayText)
  | deny (index : Option Int) (message : DisplayText)
  deriving Repr, DecidableEq

/-- Is the command one of the two allow intents? -/
def isAllowCmd : Command → Bool
  | .allowEntry _ _ => true
  | .allowExit _ _ => true
  | .deny _ _ => false

/-- The engine's `currentDate` in the configured timezone: local-midnight
epoch milliseconds plus milliseconds of the day. -/
structure LocalDate where
  dayStart : Int
  msOfDay : Int
  deriving Repr, DecidableEq

/-- `Date.getTime()`. -/
def LocalDate.getTime (d : LocalDate) : Int := d.dayStart + d.msOfDay

/-- `new Date(currentDate).setHours(h, m, 0, 0)`, as epoch ms of the same
local day. -/
def LocalDate.setHM (d : LocalDate) (h m : Nat) : Int :=
  d.dayStart + 3600000 * h + 60000 * m

/-- Collaborator responses for one RFID event. -/
structure EngineEnv where
  lockHeld : Bool
  tagOf : Option Tag
  lastAccess : Option Int
  classesToday : List Nat
  deriving Repr, DecidableEq

/-- `allowAccess` (`src/index.ts`): send `allowEntry` for way 2,
`allowExit` for way 3, nothing otherwise — and unconditionally record
`waitingToTurn = {messageIndex, tagId}`. -/
def allowAccess (index way : Option Int) (status : String) (tagId : Int) :
    List Command × Option Waiting :=
  (if way = some 2 then [.allowEntry index (.tagStatus status)]
   else if way = some 3 then [.allowExit index (.tagStatus status)]
   else [],
   some ⟨index, tagId⟩)

/-- The `for (const classElement of classes)` loop of `handleRFID`: skip
rows whose `[start − tol, start + tol]` window (today, minute precision)
does not contain `currentDate`, admit on the first one that does, deny with
the out-of-schedule message after the loop. -/
def scheduleScan (tol : Int) (now : LocalDate) (index way : Option Int)
    (status : String) (tagId : Int) (w0 : Option Waiting) :
    List Nat → List Command × Option Waiting
  | [] => ([.deny index .outOfHour], w0)
  | start :: rest =>
    let classStart := now.setHM (start / 60) (start % 60)
    let windowStart := classStart - tol * 60000
    let windowEnd := classStart + tol * 60000
    if now.getTime > windowEnd then
      scheduleScan tol now index way status tagId w0 rest
    else if now.getTime < windowStart then
      scheduleScan tol now index way status tagId w0 rest
    else allowAccess index way status tagId

/-- `handleRFID` (`src/index.ts`): ignore unparsable tag ids; deny while
the import lock is held; deny unknown credentials; admit admins
unconditionally; deny unreleased tags with their status text; deny on the
anti-spam window (`lastAccess.timestamp + 2 × tolerance` still in the
future); deny when no class row exists today; otherwise run the schedule
scan. -/
def handleRFID (tol : Int) (env : EngineEnv) (index : Option Int)
    (tagIdP wayP : Option Int) (now : LocalDate) (w0 : Option Waiting) :
    List Command × Option Waiting :=
  match tagIdP with
  | none => ([], w0)
  | some tagId =>
    if env.lockHeld then ([.deny index .waitSystemIsUpdating], w0)
    else
      match env.tagOf with
      | none => ([.deny index .defaultDeny], w0)
      | some tag =>
        if tag.admin then allowAccess index wayP tag.status tagId
        else if !tag.released then ([.deny index (.tagStatus tag.status)], w0)
        else
          let spamBlocked :=
            match env.lastAccess with
            | none => false
            | some t0 => decide (t0 + tol * 2 * 60000 > now.getTime)
          if spamBlocked then ([.deny index .onlyOneAccess], w0)
          else if env.classesToday.isEmpty then ([.deny index .defaultDeny], w0)
          else scheduleScan tol now index wayP tag.status tagId w0 env.classesToday

/-! ### Engine lemmas -/

/-- `setHours(start / 60, start % 60)` lands on minute `start` of the
current day. -/
theorem setHM_start (day t : Int) (M : Nat) :
    LocalDate.setHM ⟨day, t⟩ (M / 60) (M % 60) = day + 60000 * (M : Int) := by
  unfold LocalDate.setHM
  dsimp only
  have hM := Nat.div_add_mod M 60
  omega

/-- A non-admin, released, spam-clear event with some class row today goes
to the schedule scan. -/
theorem handleRFID_nonadmin (tol : Int) (tag : Tag) (la : Option Int)
    (classes : List Nat) (index way : Option Int) (tagId : Int)
    (now : LocalDate) (w0 : Option Waiting)
    (hADM : tag.admin = false) (hREL : tag.released = true)
    (hspam : ∀ t0, la = some t0 → t0 + tol * 2 * 60000 ≤ now.getTime)
    (hcls : classes ≠ []) :
    handleRFID tol ⟨false, some tag, la, classes⟩ index (some tagId) way now w0 =
      scheduleScan tol now index way tag.status tagId w0 classes := by
  unfold handleRFID
  rcases la with _ | t0
  · simp [hADM, hREL, hcls]
  · have hle := hspam t0 rfl
    have hdec : decide (t0 + tol * 2 * 60000 > now.getTime) = false :=
      decide_eq_false (by omega)
    simp [hADM, hREL, hcls, hdec]

/-- A single class row whose tolerance window contains `now` admits. -/
theorem scheduleScan_single_in (tol : Int) (now : LocalDate)
    (index way : Option Int) (status : String) (tagId : Int)
    (w0 : Option Waiting) (M : Nat)
    (h1 : now.getTime ≤ now.setHM (M / 60) (M % 60) + tol * 60000)
    (h2 : now.setHM (M / 60) (M % 60) - tol * 60000 ≤ now.getTime) :
    scheduleScan tol now index way status tagId w0 [M] =
      allowAccess index way status tagId := by
  unfold scheduleScan
  rw [if_neg (by omega), if_neg (by omega)]

/-- A single class row whose tolerance window misses `now` denies with the
out-of-schedule message. -/
theorem scheduleScan_single_out (tol : Int) (now : LocalDate)
    (index way : Option Int) (status : String) (tagId : Int)
    (w0 : Option Waiting) (M : Nat) (htol : 0 ≤ tol)
    (h : now.setHM (M / 60) (M % 60) + tol * 60000 < now.getTime ∨
      now.getTime < now.setHM (M / 60) (M % 60) - tol * 60000) :
    scheduleScan tol now index way status tagId w0 [M] =
      ([.deny index .outOfHour], w0) := by
  unfold scheduleScan
  rcases h with h | h
  · rw [if_pos (by omega)]
    rfl
  · rw [if_neg (by omega), if_pos (by omega)]
    rfl

/-- Claim C2: for a non-admin, released Tag with one class at minute `M`
today, tolerance `T`, and no blocking recent access, a read at minute
`M − T` or `M + T` yields exactly one allow command, while a read at
`M − T − 1` or `M + T + 1` yields the out-of-schedule deny command. -/
theorem admission_window_bounds (T M : Nat) (day : Int) (index way : Option Int)
    (tagId : Int) (tag : Tag) (la : Option Int) (w0 : Option Waiting)
    (hADM : tag.admin = false) (hREL : tag.released = true)
    (hway : way = some 2 ∨ way = some 3)
    (hM1 : T + 1 ≤ M) (hM2 : M + T + 1 ≤ 1439)
    (hla : ∀ t0, la = some t0 →
      t0 + (T : Int) * 2 * 60000 ≤ day + ((M : Int) - T - 1) * 60000) :
    ((handleRFID T ⟨false, some tag, la, [M]⟩ index (some tagId) way
        ⟨day, ((M : Int) - T) * 60000⟩ w0).1.map isAllowCmd = [true]) ∧
    ((handleRFID T ⟨false, some tag, la, [M]⟩ index (some tagId) way
        ⟨day, ((M : Int) + T) * 60000⟩ w0).1.map isAllowCmd = [true]) ∧
    ((handleRFID T ⟨false, some tag, la, [M]⟩ index (some tagId) way
        ⟨day, ((M : Int) - T - 1) * 60000⟩ w0).1 = [.deny index .outOfHour]) ∧
    ((handleRFID T ⟨false, some tag, la, [M]⟩ index (some tagId) way
        ⟨day, ((M : Int) + T + 1) * 60000⟩ w0).1 = [.deny index .outOfHour]) := by
  have hallow : (allowAccess index way tag.status tagId).1.map isAllowCmd = [true] := by
    rcases hway with rfl | rfl
    · simp [allowAccess, isAllowCmd]
    · simp [allowAccess, isAllowCmd]
  refine ⟨?_, ?_, ?_, ?_⟩
  · rw [handleRFID_nonadmin _ _ _ _ _ _ _ _ _ hADM hREL
      (fun t0 ht0 => by have := hla t0 ht0; simp only [LocalDate.getTime]; omega)
      (by simp),
      scheduleScan_single_in _ _ _ _ _ _ _ _
        (by rw [setHM_start]; simp only [LocalDate.getTime]; omega)
        (by rw [setHM_start]; simp only [LocalDate.getTime]; omega)]
    exact hallow
  · rw [handleRFID_nonadmin _ _ _ _ _ _ _ _ _ hADM hREL
      (fun t0 ht0 => by have := hla t0 ht0; simp only [LocalDate.getTime]; omega)
      (by simp),
      scheduleScan_single_in _ _ _ _ _ _ _ _
        (by rw [setHM_start]; simp only [LocalDate.getTime]; omega)
        (by rw [setHM_start]; simp only [LocalDate.getTime]; omega)]
    exact hallow
  · rw [handleRFID_nonadmin _ _ _ _ _ _ _ _ _ hADM hREL
      (fun t0 ht0 => by have := hla t0 ht0; simp only [LocalDate.getTime]; omega)
      (by simp),
      scheduleScan_single_out _ _ _ _ _ _ _ _ (by omega)
        (Or.inr (by rw [setHM_start]; simp only [LocalDate.getTime]; omega))]
  · rw [handleRFID_nonadmin _ _ _ _ _ _ _ _ _ hADM hREL
      (fun t0 ht0 => by have := hla t0 ht0; simp only [LocalDate.getTime]; omega)
      (by simp),
      scheduleScan_single_out _ _ _ _ _ _ _ _ (by omega)
        (Or.inl (by rw [setHM_start]; simp only [LocalDate.getTime]; omega))]

/-- Witness for C2: minute 540 (09:00), tolerance 15, reads at 08:45,
09:15, 08:44 and 09:16. -/
theorem admission_window_bounds_witness :
    ((handleRFID 15 ⟨false, some ⟨7, 1001, true, "OK", false⟩, none, [540]⟩
        (some 1) (some 1001) (some 2) ⟨0, ((540 : Int) - 15) * 60000⟩ none).1.map
        isAllowCmd = [true]) ∧
    ((handleRFID 15 ⟨false, some ⟨7, 1001, true, "OK", false⟩, none, [540]⟩
        (some 1) (some 1001) (some 2) ⟨0, ((540 : Int) + 15) * 60000⟩ none).1.map
        isAllowCmd = [true]) ∧
    ((handleRFID 15 ⟨false, some ⟨7, 1001, true, "OK", false⟩, none, [540]⟩
        (some 1) (some 1001) (some 2) ⟨0, ((540 : Int) - 15 - 1) * 60000⟩ none).1 =
      [.deny (some 1) .outOfHour]) ∧
    ((handleRFID 15 ⟨false, some ⟨7, 1001, true, "OK", false⟩, none, [540]⟩
        (some 1) (some 1001) (some 2) ⟨0, ((540 : Int) + 15 + 1) * 60000⟩ none).1 =
      [.deny (some 1) .outOfHour]) :=
  admission_window_bounds 15 540 0 (some 1) (some 2) 1001
    ⟨7, 1001, true, "OK", false⟩ none none rfl rfl (Or.inl rfl)
    (by decide) (by decide) (fun t0 h => by cases h)

/-- Claim C3: with `lastAccess.timestamp = t0` and tolerance `T`, an RFID
read at `t0 + 2T − 1` minutes is denied with the only-one-access message,
and a read at `t0 + 2T + 1` minutes passes the anti-spam check and is
admitted when a schedule window matches. -/
theorem anti_spam_window (T t0 day : Int) (M : Nat) (index way : Option Int)
    (tagId : Int) (tag : Tag) (w0 : Option Waiting)
    (hADM : tag.admin = false) (hREL : tag.released = true)
    (hway : way = some 2 ∨ way = some 3)
    (hwin1 : day + 60000 * (M : Int) - T * 60000 ≤ t0 + (2 * T + 1) * 60000)
    (hwin2 : t0 + (2 * T + 1) * 60000 ≤ day + 60000 * (M : Int) + T * 60000) :
    ((handleRFID T ⟨false, some tag, some t0, [M]⟩ index (some tagId) way
        ⟨day, t0 + (2 * T - 1) * 60000 - day⟩ w0).1 =
      [.deny index .onlyOneAccess]) ∧
    ((handleRFID T ⟨false, some tag, some t0, [M]⟩ index (some tagId) way
        ⟨day, t0 + (2 * T + 1) * 60000 - day⟩ w0).1.map isAllowCmd = [true]) := by
  constructor
  · unfold handleRFID
    have hdec : decide (t0 + T * 2 * 60000 >
        (⟨day, t0 + (2 * T - 1) * 60000 - day⟩ : LocalDate).getTime) = true :=
      decide_eq_true (by simp only [LocalDate.getTime]; omega)
    simp [hADM, hREL, hdec]
  · rw [handleRFID_nonadmin _ _ _ _ _ _ _ _ _ hADM hREL
      (fun t0' ht0' => by
        obtain rfl : t0 = t0' := by simpa using ht0'
        simp only [LocalDate.getTime]; omega)
      (by simp),
      scheduleScan_single_in _ _ _ _ _ _ _ _
        (by rw [setHM_start]; simp only [LocalDate.getTime]; omega)
        (by rw [setHM_start]; simp only [LocalDate.getTime]; omega)]
    rcases hway with rfl | rfl
    · simp [allowAccess, isAllowCmd]
    · simp [allowAccess, isAllowCmd]

/-- Witness for C3: tolerance 15, last access at 09:00 (minute 540 of day
0), class at minute 570; the read at 09:29 is denied, the read at 09:31 is
admitted. -/
theorem anti_spam_window_witness :
    ((handleRFID 15 ⟨false, some ⟨7, 1001, true, "OK", false⟩,
        some ((540 : Int) * 60000), [570]⟩ (some 1) (some 1001) (some 2)
        ⟨0, (540 : Int) * 60000 + (2 * 15 - 1) * 60000 - 0⟩ none).1 =
      [.deny (some 1) .onlyOneAccess]) ∧
    ((handleRFID 15 ⟨false, some ⟨7, 1001, true, "OK", false⟩,
        some ((540 : Int) * 60000), [570]⟩ (some 1) (some 1001) (some 2)
        ⟨0, (540 : Int) * 60000 + (2 * 15 + 1) * 60000 - 0⟩ none).1.map
        isAllowCmd = [true]) :=
  anti_spam_window 15 ((540 : Int) * 60000) 0 570 (some 1) (some 2) 1001
    ⟨7, 1001, true, "OK", false⟩ none rfl rfl (Or.inl rfl) (by decide) (by decide)

/-- Claim C4: an RFID read resolving to an admin Tag (import lock not held)
takes the allow path whatever the `released` flag, the schedule rows and
the anti-spam state: no deny is ever sent, the pending turn is recorded,
and for way 2 / way 3 the corresponding allow command is issued. -/
theorem admin_bypass (tol : Int) (tag : Tag) (la : Option Int)
    (classes : List Nat) (index way : Option Int) (tagId : Int)
    (now : LocalDate) (w0 : Option Waiting) (hADM : tag.admin = true) :
    ((handleRFID tol ⟨false, some tag, la, classes⟩ index (some tagId) way
        now w0).1.all isAllowCmd = true) ∧
    ((handleRFID tol ⟨false, some tag, la, classes⟩ index (some tagId) way
        now w0).2 = some ⟨index, tagId⟩) ∧
    (way = some 2 →
      (handleRFID tol ⟨false, some tag, la, classes⟩ index (some tagId) way
        now w0).1 = [.allowEntry index (.tagStatus tag.status)]) ∧
    (way = some 3 →
      (handleRFID tol ⟨false, some tag, la, classes⟩ index (some tagId) way
        now w0).1 = [.allowExit index (.tagStatus tag.status)]) := by
  have hred : handleRFID tol ⟨false, some tag, la, classes⟩ index (some tagId)
      way now w0 = allowAccess index way tag.status tagId := by
    unfold handleRFID
    simp [hADM]
  rw [hred]
  unfold allowAccess
  by_cases h2 : way = some 2
  · simp [h2, isAllowCmd]
  · by_cases h3 : way = some 3
    · simp [h2, h3, isAllowCmd]
    · simp [h2, h3, isAllowCmd]

/-- Witness for C4: an admin Tag that is not released, has a blocking last
access and no class rows is still admitted (entry way). -/
theorem admin_bypass_witness :
    ((handleRFID 15 ⟨false, some ⟨7, 1001, false, "ADM", true⟩, some 0, []⟩
        (some 1) (some 1001) (some 2) ⟨0, 0⟩ none).1.all isAllowCmd = true) ∧
    ((handleRFID 15 ⟨false, some ⟨7, 1001, false, "ADM", true⟩, some 0, []⟩
        (some 1) (some 1001) (some 2) ⟨0, 0⟩ none).2 =
      some ⟨some 1, 1001⟩) ∧
    (some (2 : Int) = some 2 →
      (handleRFID 15 ⟨false, some ⟨7, 1001, false, "ADM", true⟩, some 0, []⟩
        (some 1) (some 1001) (some 2) ⟨0, 0⟩ none).1 =
      [.allowEntry (some 1) (.tagStatus "ADM")]) ∧
    (some (2 : Int) = some 3 →
      (handleRFID 15 ⟨false, some ⟨7, 1001, false, "ADM", true⟩, some 0, []⟩
        (some 1) (some 1001) (some 2) ⟨0, 0⟩ none).1 =
      [.allowExit (some 1) (.tagStatus "ADM")]) :=
  admin_bypass 15 ⟨7, 1001, false, "ADM", true⟩ (some 0) [] (some 1) (some 2)
    1001 ⟨0, 0⟩ none rfl

/-- Counterexample to C7 as stated: an admin read with way 9 (passing every
authorization check) sends no hardware command, yet `waitingToTurn` does
not stay unchanged — it is overwritten with the pending turn. -/
theorem way_gap_counterexample :
    ((handleRFID 15 ⟨false, some ⟨7, 1001, true, "OK", true⟩, none, []⟩ (some 5)
        (some 1001) (some 9) ⟨0, 0⟩ none).1 = []) ∧
    ((handleRFID 15 ⟨false, some ⟨7, 1001, true, "OK", true⟩, none, []⟩ (some 5)
        (some 1001) (some 9) ⟨0, 0⟩ none).2 ≠ none) := by
  constructor
  · rfl
  · intro h
    simp [handleRFID, allowAccess] at h

/-- Claim C7 as amended: on an RFID read that passes all authorization
checks but whose way is neither 2 nor 3, the engine sends no hardware
command, but still records `PendingTurn{messageIndex, tagId}` — the
`waitingToTurn` slot is overwritten, not left unchanged. -/
theorem way_gap_records_pending (tol : Int) (tag : Tag) (la : Option Int)
    (M : Nat) (index way : Option Int) (tagId : Int) (now : LocalDate)
    (w0 : Option Waiting) (hw2 : way ≠ some 2) (hw3 : way ≠ some 3)
    (hpass : tag.admin = true ∨
      (tag.released = true ∧
        (∀ t0, la = some t0 → t0 + tol * 2 * 60000 ≤ now.getTime) ∧
        now.getTime ≤ now.setHM (M / 60) (M % 60) + tol * 60000 ∧
        now.setHM (M / 60) (M % 60) - tol * 60000 ≤ now.getTime)) :
    handleRFID tol ⟨false, some tag, la, [M]⟩ index (some tagId) way now w0 =
      ([], some ⟨index, tagId⟩) := by
  have hAllow : allowAccess index way tag.status tagId =
      ([], some ⟨index, tagId⟩) := by
    unfold allowAccess
    rw [if_neg hw2, if_neg hw3]
  by_cases hADM : tag.admin = true
  · unfold handleRFID
    simp [hADM, hAllow]
  · rcases hpass with hADM' | ⟨hREL, hspam, hin1, hin2⟩
    · exact absurd hADM' hADM
    · rw [handleRFID_nonadmin _ _ _ _ _ _ _ _ _
        (Bool.not_eq_true _ ▸ hADM) hREL hspam (by simp),
        scheduleScan_single_in _ _ _ _ _ _ _ _ hin1 hin2, hAllow]

/-- Witness for C7 (amended) on the non-admin path: released tag, clear
anti-spam state, in-window class, way 9. -/
theorem way_gap_records_pending_witness :
    handleRFID 15 ⟨false, some ⟨7, 1001, true, "OK", false⟩, none, [540]⟩
      (some 5) (some 1001) (some 9) ⟨0, (540 : Int) * 60000⟩ none =
      ([], some ⟨some 5, 1001⟩) :=
  way_gap_records_pending 15 ⟨7, 1001, true, "OK", false⟩ none 540 (some 5)
    (some 9) 1001 ⟨0, (540 : Int) * 60000⟩ none (by decide) (by decide)
    (Or.inr ⟨rfl, (fun t0 h => by cases h), (by rw [setHM_start]; decide),
      (by rw [setHM_start]; decide)⟩)

/-! ## Synchronization job (`src/utils/importJob.ts`)

`runImport` is embedded as a trace semantics: the run is a pure function of
the collaborator answers (lock marker, GET result, per-item schema
validation, waiting accesses, POST result) plus a failure oracle for the
repository calls, and returns the list of calls it issued, whether an
exception escaped the function, and the final lock-marker state.
-/

/-- A validated user record (`GetApiResponseSchema` output): `aluno_id`,
`credencial`, `horarios` as `(start-minutes, weekday-list)` pairs (weekday
codes 0–6), `liberado`, `status`, `admin`. -/
structure UserRec where
  alunoId : Int
  credencial : Int
  horarios : List (Nat × List Nat)
  liberado : Bool
  status : String
  admin : Bool
  deriving Repr, DecidableEq

/-- A per-event acknowledgement of the POST response
(`PostApiResponseSchema` output): access id and success flag. -/
structure Ack where
  acesso : String
  success : Bool
  deriving Repr, DecidableEq

/-- One call issued by a `runImport` run (its observable side effects). -/
inductive Effect where
  | apiGet
  | tagUpsert (userId : Int)
  | classDeleteAll (userId : Int)
  | classCreate (userId : Int) (start : Nat) (weekDay : Nat)
  | apiPost
  | accessUpdate (id : String) (granted : Bool)
  deriving Repr, DecidableEq

/-- Failure oracle for the repository collaborators: `true` means the call
rejects (the `await` throws). -/
structure RepoOracle where
  upsertFails : Int → Bool
  deleteClassesFails : Int → Bool
  createClassFails : Int → Nat → Nat → Bool
  updateStatusFails : String → Bool

/-- Collaborator answers for one `runImport` run. -/
structure ImportWorld where
  lockFs : Option Int
  now : Int
  fetchOk : Bool
  records : List (Option UserRec)
  waitingAccesses : List String
  postOk : Bool
  acks : Option (List Ack)

/-- Result of a run: calls issued, whether an exception escaped
`runImport`, and the lock marker afterwards. -/
structure ImportRun where
  effects : List Effect
  crashed : Bool
  lockFs : Option Int
  deriving Repr, DecidableEq

/-- The nested class-creation loops for one user, on the expanded
`(start, weekday)` pairs, stopping at the first rejecting call. -/
def createClasses (o : RepoOracle) (uid : Int) :
    List (Nat × Nat) → List Effect × Bool
  | [] => ([], false)
  | (start, wd) :: rest =>
    if o.createClassFails uid start wd then ([.classCreate uid start wd], true)
    else
      let r := createClasses o uid rest
      (.classCreate uid start wd :: r.1, r.2)

/-- Pull-phase body for one valid user: `createOrUpdate` the Tag, delete
the user's class rows, then — unless the user is neither released nor
admin — create one class row per expanded `(start, weekday)` pair.  The
boolean is `true` when a repository call rejected, which (there being no
`try`/`catch` here) propagates. -/
def importUser (o : RepoOracle) (u : UserRec) : List Effect × Bool :=
  if o.upsertFails u.alunoId then ([.tagUpsert u.alunoId], true)
  else if o.deleteClassesFails u.alunoId then
    ([.tagUpsert u.alunoId, .classDeleteAll u.alunoId], true)
  else if !u.liberado && !u.admin then
    ([.tagUpsert u.alunoId, .classDeleteAll u.alunoId], false)
  else
    let pairs := u.horarios.flatMap (fun p => p.2.map (fun d => (p.1, d)))
    let r := createClasses o u.alunoId pairs
    (.tagUpsert u.alunoId :: .classDeleteAll u.alunoId :: r.1, r.2)

/-- The `for (const user of validUsers)` loop: sequential; a rejection in
one user's calls aborts the rest of the loop. -/
def processUsers (o : RepoOracle) : List UserRec → List Effect × Bool
  | [] => ([], false)
  | u :: rest =>
    let r := importUser o u
    if r.2 then (r.1, true)
    else
      let r2 := processUsers o rest
      (r.1 ++ r2.1, r2.2)

/-- The `for (const response of parsed.data)` loop of the push phase: one
`updateStatus` per acknowledgement, aborting the rest on a rejection. -/
def processAcks (o : RepoOracle) : List Ack → List Effect × Bool
  | [] => ([], false)
  | a :: rest =>
    if o.updateStatusFails a.acesso then
      ([.accessUpdate a.acesso a.success], true)
    else
      let r := processAcks o rest
      (.accessUpdate a.acesso a.success :: r.1, r.2)

/-- `runImport` (`src/utils/importJob.ts`), faithful to the source: the
boolean result of `lockfile.acquire()` is discarded, so the run proceeds
whether or not the lock was actually free; GET/schema/POST failures return
after releasing the lock (pull phase) or without it (push phase); an
uncaught repository rejection in the pull loop escapes before
`lockfile.release()`. -/
def runImport (o : RepoOracle) (w : ImportWorld) : ImportRun :=
  let fs1 := (lockAcquire (60 * 1000) w.now w.lockFs).2
  if !w.fetchOk then ⟨[.apiGet], false, lockRelease fs1⟩
  else
    let validUsers := w.records.filterMap id
    if validUsers.isEmpty then ⟨[.apiGet], false, lockRelease fs1⟩
    else
      let pull := processUsers o validUsers
      if pull.2 then ⟨.apiGet :: pull.1, true, fs1⟩
      else
        let fs2 := lockRelease fs1
        if w.waitingAccesses.isEmpty then ⟨.apiGet :: pull.1, false, fs2⟩
        else if !w.postOk then ⟨.apiGet :: pull.1 ++ [.apiPost], false, fs2⟩
        else
          match w.acks with
          | none => ⟨.apiGet :: pull.1 ++ [.apiPost], false, fs2⟩
          | some acks =>
            let push := processAcks o acks
            ⟨.apiGet :: pull.1 ++ [.apiPost] ++ push.1, push.2, fs2⟩

/-! ### Synchronization-job lemmas -/

/-- Whatever the oracle answers, a processed user's trace contains its Tag
upsert (it is the first call issued for the user). -/
theorem importUser_upsert_mem (o : RepoOracle) (u : UserRec) :
    Effect.tagUpsert u.alunoId ∈ (importUser o u).1 := by
  unfold importUser
  split_ifs <;> simp

/-- Calls issued for the first user of the pull loop are in the loop's
trace. -/
theorem processUsers_head_mem (o : RepoOracle) (u : UserRec) (l : List UserRec)
    (e : Effect) (he : e ∈ (importUser o u).1) :
    e ∈ (processUsers o (u :: l)).1 := by
  unfold processUsers
  dsimp only
  by_cases h : (importUser o u).2 = true
  · simp [h, he]
  · simp [h, he]

/-- Once the GET succeeded and some record is valid, the run's trace is the
GET followed by the pull-loop trace (plus whatever the push phase adds). -/
theorem runImport_effects_shape (o : RepoOracle) (w : ImportWorld)
    (hfetch : w.fetchOk = true) (hne : (w.records.filterMap id).isEmpty = false) :
    ∃ t, (runImport o w).effects =
      .apiGet :: (processUsers o (w.records.filterMap id)).1 ++ t := by
  unfold runImport
  dsimp only
  rw [hfetch, hne]
  simp only [Bool.not_true, Bool.false_eq_true, if_false]
  split_ifs
  · exact ⟨[], by simp⟩
  · exact ⟨[], by simp⟩
  · exact ⟨[.apiPost], by simp⟩
  · cases w.acks with
    | none => exact ⟨[.apiPost], by simp⟩
    | some acks => exact ⟨[.apiPost] ++ (processAcks o acks).1, by simp⟩

/-- Claim C1 (code bug): `runImport` discards the boolean returned by
`lockfile.acquire()`.  With the `import` marker still fresh — `acquire()`
returns `false`, the lock is held by another run — the job does not abort:
it still issues the external GET and the first user's Tag upsert. -/
theorem runImport_proceeds_when_lock_held (o : RepoOracle) (mtime now : Int)
    (u : UserRec) (rs : List (Option UserRec)) (wa : List String)
    (po : Bool) (acks : Option (List Ack))
    (hfresh : now - mtime ≤ 60 * 1000) :
    (lockAcquire (60 * 1000) now (some mtime)).1 = false ∧
    Effect.apiGet ∈
      (runImport o ⟨some mtime, now, true, some u :: rs, wa, po, acks⟩).effects ∧
    Effect.tagUpsert u.alunoId ∈
      (runImport o ⟨some mtime, now, true, some u :: rs, wa, po, acks⟩).effects := by
  have hil : isLocked 60000 now (some mtime) = (true, some mtime) := by
    simp only [isLocked]
    rw [if_neg (by omega)]
  have hacq : (lockAcquire (60 * 1000) now (some mtime)).1 = false := by
    simp [lockAcquire, hil]
  have hshape := runImport_effects_shape o
    ⟨some mtime, now, true, some u :: rs, wa, po, acks⟩ rfl (by simp)
  obtain ⟨t, ht⟩ := hshape
  rw [show List.filterMap id
      (⟨some mtime, now, true, some u :: rs, wa, po, acks⟩ : ImportWorld).records
      = u :: rs.filterMap id from by simp] at ht
  refine ⟨hacq, ?_, ?_⟩
  · rw [ht]; simp
  · rw [ht]
    exact List.mem_cons_of_mem _ (List.mem_append_left _
      (processUsers_head_mem o u _ _ (importUser_upsert_mem o u)))

/-- Witness for C1: fresh marker (age 1 s), one valid user. -/
theorem runImport_proceeds_when_lock_held_witness :
    (lockAcquire (60 * 1000) 1000 (some 0)).1 = false ∧
    Effect.apiGet ∈
      (runImport ⟨fun _ => false, fun _ => false, fun _ _ _ => false, fun _ => false⟩
        ⟨some 0, 1000, true, [some ⟨1, 11, [], true, "A", false⟩], [], true,
          some []⟩).effects ∧
    Effect.tagUpsert (⟨1, 11, [], true, "A", false⟩ : UserRec).alunoId ∈
      (runImport ⟨fun _ => false, fun _ => false, fun _ _ _ => false, fun _ => false⟩
        ⟨some 0, 1000, true, [some ⟨1, 11, [], true, "A", false⟩], [], true,
          some []⟩).effects :=
  runImport_proceeds_when_lock_held
    ⟨fun _ => false, fun _ => false, fun _ _ _ => false, fun _ => false⟩
    0 1000 ⟨1, 11, [], true, "A", false⟩ [] [] true (some []) (by decide)

/-- Counterexample to C8 as stated: with two valid users and the repository
rejecting the first user's Tag upsert, the second user is never processed —
no call for user 2 appears in the trace (and the exception escapes the
run). -/
theorem import_isolation_counterexample :
    ((runImport
        ⟨fun uid => decide (uid = 1), fun _ => false, fun _ _ _ => false,
          fun _ => false⟩
        ⟨none, 0, true,
          [some ⟨1, 11, [], true, "A", false⟩, some ⟨2, 22, [], true, "B", false⟩],
          [], true, some []⟩).crashed = true) ∧
    (Effect.tagUpsert 2 ∉
      (runImport
        ⟨fun uid => decide (uid = 1), fun _ => false, fun _ _ _ => false,
          fun _ => false⟩
        ⟨none, 0, true,
          [some ⟨1, 11, [], true, "A", false⟩, some ⟨2, 22, [], true, "B", false⟩],
          [], true, some []⟩).effects) := by
  decide

/-- Claim C8 as amended: a repository rejection while importing one user
aborts the pull loop — the trace stops at that user's failing call, the
exception escapes (and the lock is not released); likewise a rejection
while updating one acknowledgement's status aborts the remaining
acknowledgements. -/
theorem repo_failure_aborts_run (o1 o2 : RepoOracle) (u1 u2 : UserRec)
    (rs : List (Option UserRec)) (fs0 : Option Int) (now : Int)
    (wa : List String) (po : Bool) (acks0 : Option (List Ack))
    (a1 : Ack) (as' : List Ack)
    (hfail : o1.upsertFails u1.alunoId = true)
    (hok2 : (importUser o2 u2).2 = false)
    (hwa : wa.isEmpty = false)
    (hupd : o2.updateStatusFails a1.acesso = true) :
    ((runImport o1 ⟨fs0, now, true, some u1 :: rs, wa, po, acks0⟩).effects =
      [.apiGet, .tagUpsert u1.alunoId] ∧
     (runImport o1 ⟨fs0, now, true, some u1 :: rs, wa, po, acks0⟩).crashed = true) ∧
    ((runImport o2 ⟨fs0, now, true, [some u2], wa, true, some (a1 :: as')⟩).effects =
      .apiGet :: (importUser o2 u2).1 ++
        [.apiPost, .accessUpdate a1.acesso a1.success] ∧
     (runImport o2 ⟨fs0, now, true, [some u2], wa, true,
        some (a1 :: as')⟩).crashed = true) := by
  have hiu : importUser o1 u1 = ([.tagUpsert u1.alunoId], true) := by
    unfold importUser
    rw [if_pos hfail]
  have hpull1 : processUsers o1 (u1 :: rs.filterMap id) =
      ([.tagUpsert u1.alunoId], true) := by
    unfold processUsers
    dsimp only
    rw [hiu]
    simp
  have hpull2 : processUsers o2 [u2] = ((importUser o2 u2).1, false) := by
    unfold processUsers
    dsimp only
    rw [hok2]
    simp [processUsers]
  have hpush : processAcks o2 (a1 :: as') =
      ([.accessUpdate a1.acesso a1.success], true) := by
    unfold processAcks
    rw [if_pos hupd]
  constructor
  · unfold runImport
    dsimp only
    rw [show List.filterMap id (some u1 :: rs) = u1 :: rs.filterMap id from by simp]
    rw [hpull1]
    simp
  · unfold runImport
    dsimp only
    rw [show List.filterMap id [some u2] = [u2] from by simp]
    rw [hpull2, hpush]
    simp [hwa, hok2]

/-- Witness for C8 (amended): oracle 1 rejects user 1's upsert; oracle 2
imports user 2 cleanly but rejects the first acknowledgement update. -/
theorem repo_failure_aborts_run_witness :
    ((runImport ⟨fun uid => decide (uid = 1), fun _ => false, fun _ _ _ => false,
        fun _ => false⟩
        ⟨none, 0, true, [some ⟨1, 11, [], true, "A", false⟩], ["e1"], true,
          some [⟨"e1", true⟩]⟩).effects = [.apiGet, .tagUpsert 1] ∧
     (runImport ⟨fun uid => decide (uid = 1), fun _ => false, fun _ _ _ => false,
        fun _ => false⟩
        ⟨none, 0, true, [some ⟨1, 11, [], true, "A", false⟩], ["e1"], true,
          some [⟨"e1", true⟩]⟩).crashed = true) ∧
    ((runImport ⟨fun _ => false, fun _ => false, fun _ _ _ => false,
        fun _ => true⟩
        ⟨none, 0, true, [some ⟨2, 22, [], true, "B", false⟩], ["e1"], true,
          some [⟨"e1", true⟩]⟩).effects =
      .apiGet :: (importUser ⟨fun _ => false, fun _ => false, fun _ _ _ => false,
        fun _ => true⟩ ⟨2, 22, [], true, "B", false⟩).1 ++
        [.apiPost, .accessUpdate "e1" true] ∧
     (runImport ⟨fun _ => false, fun _ => false, fun _ _ _ => false,
        fun _ => true⟩
        ⟨none, 0, true, [some ⟨2, 22, [], true, "B", false⟩], ["e1"], true,
          some [⟨"e1", true⟩]⟩).crashed = true) :=
  repo_failure_aborts_run
    ⟨fun uid => decide (uid = 1), fun _ => false, fun _ _ _ => false, fun _ => false⟩
    ⟨fun _ => false, fun _ => false, fun _ _ _ => false, fun _ => true⟩
    ⟨1, 11, [], true, "A", false⟩ ⟨2, 22, [], true, "B", false⟩ [] none 0
    ["e1"] true (some [⟨"e1", true⟩]) ⟨"e1", true⟩ [] (by decide) (by decide)
    (by decide) (by decide)

end Catraca
